import Mathlib

/-!
Verification of the MIDI piano view (src/src/App.tsx).

The component keeps three pieces of view state: a connection status, a map
from MIDI note number to velocity ("currently held keys"), and the list of
input-device names.  We embed the message handler, the note-name formatter,
the render-time sorted list, and the connect/device-list event flow, and
prove the spec's claims about them.
-/

/-- The fixed pitch-class table (`NOTE_NAMES` in App.tsx), one 12-entry
list starting at C (written here as two halves joined by append). -/
def NOTE_NAMES : List String :=
  ["C", "C#", "D", "D#", "E", "F"] ++ ["F#", "G", "G#", "A", "A#", "B"]

/-- `midiNoteToName` from App.tsx: pitch class from `note % 12`, octave is
`Math.floor(note / 12) - 1` (an integer, so octave can be `-1`). -/
def midiNoteToName (note : Nat) : String :=
  NOTE_NAMES.getD (note % 12) "" ++ toString (((note / 12 : Nat) : Int) - 1)

/-- The connection status enum (`MIDIStatus` in App.tsx). -/
inductive MIDIStatus where
  | idle
  | requesting
  | ready
  | unsupported
  | denied
  | error
  deriving DecidableEq, Repr

/-- `pressedNotes` is a JS `Map<number, number>` (note -> velocity): an
insertion-ordered association list with unique keys. -/
abbrev NoteMap : Type := List (Nat × Nat)

/-- `Map.prototype.set`: update the value in place if the key is present
(keeping its insertion position), otherwise append the new entry. -/
def mapSet : NoteMap → Nat → Nat → NoteMap
  | [], k, v => [(k, v)]
  | (k', v') :: rest, k, v =>
      if k' = k then (k, v) :: rest else (k', v') :: mapSet rest k v

/-- `Map.prototype.delete`: drop the entry with the given key. -/
def mapDelete : NoteMap → Nat → NoteMap
  | [], _ => []
  | (k', v') :: rest, k =>
      if k' = k then mapDelete rest k else (k', v') :: mapDelete rest k

/-- `Map.prototype.get`: value of the first entry with the given key. -/
def mapLookup : NoteMap → Nat → Option Nat
  | [], _ => none
  | (k', v') :: rest, k => if k' = k then some v' else mapLookup rest k

/-- `handleMIDIMessage` from App.tsx, as a pure transformer of the pressed
map.  `data` is the raw byte sequence of the incoming message (bytes as
naturals).  Messages shorter than 3 bytes return early; otherwise byte 0 is
the status, byte 1 the note, byte 2 the velocity. -/
def handleMIDIMessage (data : List Nat) (pressed : NoteMap) : NoteMap :=
  if data.length < 3 then pressed else
  let status := data.getD 0 0
  let note := data.getD 1 0
  let velocity := data.getD 2 0
  if (status = 0x90 ∨ status = 0x99) ∧ velocity > 0 then
    mapSet pressed note velocity
  else if (status = 0x80 ∨ status = 0x89) ∨ (status &&& 0xf0 = 0x90 ∧ velocity = 0) then
    mapDelete pressed note
  else pressed

/-- The pressed map after handling a sequence of messages, starting from the
initial empty `Map`. -/
def handleMessages (msgs : List (List Nat)) : NoteMap :=
  msgs.foldl (fun s d => handleMIDIMessage d s) []

instance : DecidableRel (fun a b : Nat × Nat => a.1 ≤ b.1) :=
  fun a b => inferInstanceAs (Decidable (a.1 ≤ b.1))

instance : IsTotal (Nat × Nat) (fun a b => a.1 ≤ b.1) :=
  ⟨fun a b => Nat.le_total a.1 b.1⟩

instance : IsTrans (Nat × Nat) (fun a b => a.1 ≤ b.1) :=
  ⟨fun _ _ _ => Nat.le_trans⟩

/-- `pressedList` from App.tsx:
`Array.from(pressedNotes.entries()).sort((a, b) => a[0] - b[0])`, i.e. the
entries sorted ascending by note number. -/
def pressedList (s : NoteMap) : List (Nat × Nat) :=
  List.insertionSort (fun a b => a.1 ≤ b.1) s

/-- The rejection value of `navigator.requestMIDIAccess`: a DOM error, of
which only the `name` field is inspected. -/
structure MIDIError where
  name : String
  deriving DecidableEq, Repr

/-- The status chosen by the `catch` branch of `connectMIDI`:
`err.name === 'SecurityError' ? 'denied' : 'error'`.  `SecurityError` is the
permission-denied kind of the platform API. -/
def statusOnAccessError (err : MIDIError) : MIDIStatus :=
  if err.name = "SecurityError" then .denied else .error

/-- A MIDI input port: nullable `name` and `id`, and the `onmidimessage`
slot.  Handler references are identified by a number; `none` is a null
slot.  The component only ever installs its single shared handler. -/
structure MIDIInput where
  name : Option String
  id : Option String
  onmidimessage : Option Nat
  deriving DecidableEq, Repr

/-- The reference identity of the shared `handleMIDIMessage` callback. -/
def appHandler : Nat := 0

/-- `input.name ?? input.id ?? 'MIDI Input'`. -/
def inputDisplayName (input : MIDIInput) : String :=
  input.name.getD (input.id.getD "MIDI Input")

/-- One input processed by the `onstatechange` body: the handler is
assigned only when the current slot differs
(`if (input.onmidimessage !== handleMIDIMessage)`).  The second component
counts whether an assignment was performed (1) or skipped (0). -/
def attachHandler (h : Nat) (input : MIDIInput) : MIDIInput × Nat :=
  if input.onmidimessage ≠ some h then ({ input with onmidimessage := some h }, 1) else (input, 0)

/-- The body of `access.onstatechange`: walk the current inputs, collect
display names, conditionally attach the shared handler.  Returns the
updated inputs, the recomputed name list, and the number of handler
assignments actually performed. -/
def onStateChange (h : Nat) (inputs : List MIDIInput) : List MIDIInput × List String × Nat :=
  (inputs.map (fun i => (attachHandler h i).1),
   inputs.map inputDisplayName,
   (inputs.map (fun i => (attachHandler h i).2)).sum)

/-- The unconditional attachment done in the `then` branch of a successful
`requestMIDIAccess` (`input.onmidimessage = handleMIDIMessage`). -/
def attachAll (h : Nat) (inputs : List MIDIInput) : List MIDIInput :=
  inputs.map (fun i => { i with onmidimessage := some h })

/-- The React component's view state. -/
structure AppState where
  midiStatus : MIDIStatus
  pressedNotes : NoteMap
  inputNames : List String
  deriving DecidableEq, Repr

/-- The view state together with the platform-side facts the callbacks
depend on: whether an access request is outstanding (a promise callback can
only fire for a request that was made) and the current input ports. -/
structure SysState where
  app : AppState
  requestPending : Bool
  inputs : List MIDIInput
  deriving DecidableEq, Repr

/-- The events the component reacts to. -/
inductive MIDIEvent where
  | startup
  | connectClick
  | accessGranted (inputs : List MIDIInput)
  | accessFailed (err : MIDIError)
  | midiMessage (data : List Nat)
  | deviceListChange (inputs : List MIDIInput)

/-- One event step, parametrised by whether `navigator.requestMIDIAccess`
exists (`apiPresent`).
* `startup`: the mount effect sets `unsupported` when the API is absent.
* `connectClick`: `connectMIDI` — early return when the API is absent,
  otherwise sets `requesting` and issues the access request.
* `accessGranted` / `accessFailed`: the promise callbacks; they can only
  fire while a request is pending.
* `midiMessage`: the shared handler, which only touches `pressedNotes`.
* `deviceListChange`: the `onstatechange` body; it never touches the
  status. -/
def step (apiPresent : Bool) (s : SysState) (e : MIDIEvent) : SysState :=
  match e with
  | .startup =>
      if apiPresent then s
      else { s with app := { s.app with midiStatus := .unsupported } }
  | .connectClick =>
      if apiPresent then
        { s with
          app := { s.app with midiStatus := .requesting },
          requestPending := true }
      else s
  | .accessGranted inputs =>
      if s.requestPending then
        { app := { s.app with midiStatus := .ready, inputNames := inputs.map inputDisplayName },
          requestPending := false,
          inputs := attachAll appHandler inputs }
      else s
  | .accessFailed err =>
      if s.requestPending then
        { s with
          app := { s.app with midiStatus := statusOnAccessError err },
          requestPending := false }
      else s
  | .midiMessage data =>
      { s with app := { s.app with pressedNotes := handleMIDIMessage data s.app.pressedNotes } }
  | .deviceListChange inputs =>
      { s with
        app := { s.app with inputNames := (onStateChange appHandler inputs).2.1 },
        inputs := (onStateChange appHandler inputs).1 }

/-- The state at mount, before the startup effect runs. -/
def initState : SysState :=
  { app := { midiStatus := .idle, pressedNotes := [], inputNames := [] },
    requestPending := false,
    inputs := [] }

/-- The connect button is rendered only while the status is `idle`
(`{midiStatus === 'idle' && <button …>}`). -/
def connectButtonVisible (st : AppState) : Bool :=
  decide (st.midiStatus = .idle)

/-! ### Lemmas about the `Map` operations -/

theorem mapLookup_mapSet_self (m : NoteMap) (k v : Nat) :
    mapLookup (mapSet m k v) k = some v := by
  induction m with
  | nil => simp [mapSet, mapLookup]
  | cons q rest ih =>
      obtain ⟨k', v'⟩ := q
      by_cases hk : k' = k
      · simp [mapSet, hk, mapLookup]
      · simp [mapSet, hk, mapLookup, ih]

theorem mapLookup_mapSet_ne (m : NoteMap) (k v j : Nat) (hj : j ≠ k) :
    mapLookup (mapSet m k v) j = mapLookup m j := by
  induction m with
  | nil => simp [mapSet, mapLookup, Ne.symm hj]
  | cons q rest ih =>
      obtain ⟨k', v'⟩ := q
      by_cases hk : k' = k
      · subst hk
        simp [mapSet, mapLookup, Ne.symm hj]
      · simp [mapSet, hk, mapLookup, ih]

theorem mapLookup_mapDelete_self (m : NoteMap) (k : Nat) :
    mapLookup (mapDelete m k) k = none := by
  induction m with
  | nil => simp [mapDelete, mapLookup]
  | cons q rest ih =>
      obtain ⟨k', v'⟩ := q
      by_cases hk : k' = k
      · simp [mapDelete, hk, ih]
      · simp [mapDelete, hk, mapLookup, ih]

theorem mapLookup_mapDelete_ne (m : NoteMap) (k j : Nat) (hj : j ≠ k) :
    mapLookup (mapDelete m k) j = mapLookup m j := by
  induction m with
  | nil => simp [mapDelete]
  | cons q rest ih =>
      obtain ⟨k', v'⟩ := q
      by_cases hk : k' = k
      · subst hk
        simp [mapDelete, mapLookup, Ne.symm hj, ih]
      · simp [mapDelete, hk, mapLookup, ih]

theorem mapDelete_of_lookup_none (m : NoteMap) (k : Nat) (h : mapLookup m k = none) :
    mapDelete m k = m := by
  induction m with
  | nil => rfl
  | cons q rest ih =>
      obtain ⟨k', v'⟩ := q
      simp only [mapLookup] at h
      by_cases hk : k' = k
      · rw [if_pos hk] at h; exact absurd h (by simp)
      · rw [if_neg hk] at h
        simp [mapDelete, hk, ih h]

theorem mem_mapSet (m : NoteMap) (k v : Nat) (p : Nat × Nat) (h : p ∈ mapSet m k v) :
    p = (k, v) ∨ p ∈ m := by
  induction m with
  | nil => simpa [mapSet] using h
  | cons q rest ih =>
      obtain ⟨k', v'⟩ := q
      by_cases hk : k' = k
      · simp only [mapSet, if_pos hk, List.mem_cons] at h
        rcases h with h | h
        · exact Or.inl h
        · exact Or.inr (List.mem_cons_of_mem _ h)
      · simp only [mapSet, if_neg hk, List.mem_cons] at h
        rcases h with h | h
        · exact Or.inr (by simp [h])
        · rcases ih h with h1 | h1
          · exact Or.inl h1
          · exact Or.inr (List.mem_cons_of_mem _ h1)

theorem sublist_mapDelete (m : NoteMap) (k : Nat) : List.Sublist (mapDelete m k) m := by
  induction m with
  | nil => simp [mapDelete]
  | cons q rest ih =>
      obtain ⟨k', v'⟩ := q
      by_cases hk : k' = k
      · simpa [mapDelete, hk] using ih.cons (k', v')
      · simpa [mapDelete, hk] using ih.cons₂ (k', v')

theorem mem_mapDelete (m : NoteMap) (k : Nat) (p : Nat × Nat) (h : p ∈ mapDelete m k) :
    p ∈ m :=
  (sublist_mapDelete m k).subset h

theorem mapLookup_mem (m : NoteMap) (k v : Nat) (h : mapLookup m k = some v) :
    (k, v) ∈ m := by
  induction m with
  | nil => simp [mapLookup] at h
  | cons q rest ih =>
      obtain ⟨k', v'⟩ := q
      simp only [mapLookup] at h
      by_cases hk : k' = k
      · rw [if_pos hk] at h
        injection h with h
        subst hk; subst h
        exact List.mem_cons_self _ _
      · rw [if_neg hk] at h
        exact List.mem_cons_of_mem _ (ih h)

theorem mem_keys_mapSet (m : NoteMap) (k v j : Nat)
    (h : j ∈ (mapSet m k v).map Prod.fst) : j = k ∨ j ∈ m.map Prod.fst := by
  rw [List.mem_map] at h
  obtain ⟨p, hp, hj⟩ := h
  rcases mem_mapSet m k v p hp with h1 | h1
  · left; rw [← hj, h1]
  · right; rw [← hj]; exact List.mem_map_of_mem Prod.fst h1

theorem nodup_keys_mapSet (m : NoteMap) (k v : Nat) (h : (m.map Prod.fst).Nodup) :
    ((mapSet m k v).map Prod.fst).Nodup := by
  induction m with
  | nil => simp [mapSet]
  | cons q rest ih =>
      obtain ⟨k', v'⟩ := q
      rw [List.map_cons, List.nodup_cons] at h
      by_cases hk : k' = k
      · subst hk
        simpa [mapSet, List.nodup_cons] using h
      · rw [show mapSet ((k', v') :: rest) k v = (k', v') :: mapSet rest k v from by
          simp [mapSet, hk]]
        rw [List.map_cons, List.nodup_cons]
        refine ⟨fun hmem => ?_, ih h.2⟩
        rcases mem_keys_mapSet rest k v k' hmem with h1 | h1
        · exact hk h1
        · exact h.1 h1

theorem nodup_keys_mapDelete (m : NoteMap) (k : Nat) (h : (m.map Prod.fst).Nodup) :
    ((mapDelete m k).map Prod.fst).Nodup :=
  ((sublist_mapDelete m k).map Prod.fst).nodup h

/-! ### Lemmas about the message handler -/

theorem nodup_keys_handle (d : List Nat) (s : NoteMap) (h : (s.map Prod.fst).Nodup) :
    ((handleMIDIMessage d s).map Prod.fst).Nodup := by
  unfold handleMIDIMessage
  by_cases h3 : d.length < 3
  · rwa [if_pos h3]
  · rw [if_neg h3]
    by_cases hc1 : (d.getD 0 0 = 0x90 ∨ d.getD 0 0 = 0x99) ∧ d.getD 2 0 > 0
    · rw [if_pos hc1]; exact nodup_keys_mapSet _ _ _ h
    · rw [if_neg hc1]
      by_cases hc2 : (d.getD 0 0 = 0x80 ∨ d.getD 0 0 = 0x89) ∨
          (d.getD 0 0 &&& 0xf0 = 0x90 ∧ d.getD 2 0 = 0)
      · rw [if_pos hc2]; exact nodup_keys_mapDelete _ _ h
      · rwa [if_neg hc2]

theorem nodup_keys_foldl (msgs : List (List Nat)) (s : NoteMap)
    (h : (s.map Prod.fst).Nodup) :
    ((msgs.foldl (fun s d => handleMIDIMessage d s) s).map Prod.fst).Nodup := by
  induction msgs generalizing s with
  | nil => simpa using h
  | cons d t ih =>
      rw [List.foldl_cons]
      exact ih _ (nodup_keys_handle d s h)

theorem nodup_keys_handleMessages (msgs : List (List Nat)) :
    ((handleMessages msgs).map Prod.fst).Nodup :=
  nodup_keys_foldl msgs [] (by simp)

theorem handle_vel_invariant (d : List Nat) (s : NoteMap)
    (hs : ∀ p ∈ s, 1 ≤ p.2 ∧ p.2 ≤ 127) (hd127 : d.getD 2 0 ≤ 127) :
    ∀ p ∈ handleMIDIMessage d s, 1 ≤ p.2 ∧ p.2 ≤ 127 := by
  intro p hp
  unfold handleMIDIMessage at hp
  by_cases h3 : d.length < 3
  · rw [if_pos h3] at hp; exact hs p hp
  · rw [if_neg h3] at hp
    by_cases hc1 : (d.getD 0 0 = 0x90 ∨ d.getD 0 0 = 0x99) ∧ d.getD 2 0 > 0
    · rw [if_pos hc1] at hp
      rcases mem_mapSet _ _ _ _ hp with h | h
      · rw [h]; exact ⟨hc1.2, hd127⟩
      · exact hs p h
    · rw [if_neg hc1] at hp
      by_cases hc2 : (d.getD 0 0 = 0x80 ∨ d.getD 0 0 = 0x89) ∨
          (d.getD 0 0 &&& 0xf0 = 0x90 ∧ d.getD 2 0 = 0)
      · rw [if_pos hc2] at hp; exact hs p (mem_mapDelete _ _ _ hp)
      · rw [if_neg hc2] at hp; exact hs p hp

theorem vel_invariant_foldl (msgs : List (List Nat)) (s : NoteMap)
    (hmsg : ∀ d ∈ msgs, d.getD 2 0 ≤ 127) (hs : ∀ p ∈ s, 1 ≤ p.2 ∧ p.2 ≤ 127) :
    ∀ p ∈ msgs.foldl (fun s d => handleMIDIMessage d s) s, 1 ≤ p.2 ∧ p.2 ≤ 127 := by
  induction msgs generalizing s with
  | nil => simpa using hs
  | cons d t ih =>
      rw [List.foldl_cons]
      exact ih _ (fun d' hd' => hmsg d' (List.mem_cons_of_mem _ hd'))
        (handle_vel_invariant d s hs (hmsg d (List.mem_cons_self _ _)))

theorem sorted_lt_of_le_of_nodup_keys (l : List (Nat × Nat))
    (hle : List.Sorted (fun a b : Nat × Nat => a.1 ≤ b.1) l)
    (hnd : (l.map Prod.fst).Nodup) :
    List.Sorted (fun a b : Nat × Nat => a.1 < b.1) l := by
  induction l with
  | nil => exact List.Pairwise.nil
  | cons a t ih =>
      rw [List.sorted_cons] at hle ⊢
      rw [List.map_cons, List.nodup_cons] at hnd
      refine ⟨fun b hb => lt_of_le_of_ne (hle.1 b hb) fun he => hnd.1 ?_, ih hle.2 hnd.2⟩
      rw [he]
      exact List.mem_map_of_mem Prod.fst hb

theorem sum_attach_count (h : Nat) (inputs : List MIDIInput) :
    (inputs.map (fun i => (attachHandler h i).2)).sum
      = (inputs.filter (fun i => i.onmidimessage != some h)).length := by
  induction inputs with
  | nil => rfl
  | cons i t ih =>
      rw [List.map_cons, List.sum_cons, List.filter_cons]
      by_cases hc : i.onmidimessage = some h
      · have h1 : (attachHandler h i).2 = 0 := by simp [attachHandler, hc]
        have h2 : (i.onmidimessage != some h) = false := by simp [hc]
        rw [h1, h2]
        simpa using ih
      · have h1 : (attachHandler h i).2 = 1 := by simp [attachHandler, hc]
        have h2 : (i.onmidimessage != some h) = true := by simp [hc]
        rw [h1, h2]
        simp [ih, Nat.add_comm]

theorem step_false_preserves_unsupported (s : SysState) (e : MIDIEvent)
    (h1 : s.app.midiStatus = .unsupported) (h2 : s.requestPending = false) :
    (step false s e).app.midiStatus = .unsupported ∧
      (step false s e).requestPending = false := by
  cases e <;> simp [step, h1, h2]

/-! ### The claims -/

/-- C1: for every incoming MIDI message of at least 3 bytes whose status
byte is note-on on channel 0 or 9 (`0x90` or `0x99`) and whose velocity
byte is in `[1, 127]`, handling the message places the pair
`(note, velocity)` in the pressed map (inserting the note or updating its
velocity). -/
theorem noteOn_inserts (data : List Nat) (s : NoteMap)
    (hlen : 3 ≤ data.length)
    (hstatus : data.getD 0 0 = 0x90 ∨ data.getD 0 0 = 0x99)
    (hv1 : 1 ≤ data.getD 2 0) (hv2 : data.getD 2 0 ≤ 127) :
    mapLookup (handleMIDIMessage data s) (data.getD 1 0) = some (data.getD 2 0) := by
  unfold handleMIDIMessage
  rw [if_neg (by omega), if_pos ⟨hstatus, by omega⟩]
  exact mapLookup_mapSet_self s _ _

theorem noteOn_inserts_witness :
    mapLookup (handleMIDIMessage [144, 60, 80] [(60, 10)]) 60 = some 80 :=
  noteOn_inserts [144, 60, 80] [(60, 10)] (by decide) (by decide) (by decide) (by decide)

/-- C2: for every note currently present in the pressed map, handling a
matching explicit note-off on channel 0 or 9 (`0x80`/`0x89`), or a
note-on-status message for that note with velocity 0, removes that note. -/
theorem noteOff_removes (data : List Nat) (s : NoteMap) (v : Nat)
    (hlen : 3 ≤ data.length)
    (hstatus : data.getD 0 0 = 0x80 ∨ data.getD 0 0 = 0x89 ∨
        (data.getD 0 0 &&& 0xf0 = 0x90 ∧ data.getD 2 0 = 0))
    (_hpressed : mapLookup s (data.getD 1 0) = some v) :
    mapLookup (handleMIDIMessage data s) (data.getD 1 0) = none := by
  unfold handleMIDIMessage
  rw [if_neg (by omega)]
  have hc1 : ¬ ((data.getD 0 0 = 0x90 ∨ data.getD 0 0 = 0x99) ∧ data.getD 2 0 > 0) := by
    rintro ⟨h9, hv0⟩
    rcases hstatus with h | h | ⟨-, hv⟩ <;> rcases h9 with h9 | h9 <;> omega
  rw [if_neg hc1]
  have hc2 : (data.getD 0 0 = 0x80 ∨ data.getD 0 0 = 0x89) ∨
      (data.getD 0 0 &&& 0xf0 = 0x90 ∧ data.getD 2 0 = 0) := by tauto
  rw [if_pos hc2]
  exact mapLookup_mapDelete_self s _

theorem noteOff_removes_witness :
    mapLookup (handleMIDIMessage [128, 60, 64] [(60, 80)]) 60 = none :=
  noteOff_removes [128, 60, 64] [(60, 80)] 80 (by decide) (by decide) (by decide)

/-- C3: a message shorter than 3 bytes, or whose status byte is neither a
recognized note-on status (high nibble `0x9`) nor a recognized note-off
(`0x80`/`0x89`), leaves the pressed map completely unchanged. -/
theorem unrecognized_ignored (data : List Nat) (s : NoteMap)
    (h : data.length < 3 ∨
        (¬ data.getD 0 0 &&& 0xf0 = 0x90 ∧ data.getD 0 0 ≠ 0x80 ∧ data.getD 0 0 ≠ 0x89)) :
    handleMIDIMessage data s = s := by
  unfold handleMIDIMessage
  rcases h with h | ⟨hm, h80, h89⟩
  · rw [if_pos h]
  · by_cases h3 : data.length < 3
    · rw [if_pos h3]
    · have hc1 : ¬ ((data.getD 0 0 = 0x90 ∨ data.getD 0 0 = 0x99) ∧ data.getD 2 0 > 0) := by
        rintro ⟨h9 | h9, -⟩
        · exact hm (by rw [h9]; decide)
        · exact hm (by rw [h9]; decide)
      have hc2 : ¬ ((data.getD 0 0 = 0x80 ∨ data.getD 0 0 = 0x89) ∨
          (data.getD 0 0 &&& 0xf0 = 0x90 ∧ data.getD 2 0 = 0)) := by
        rintro ((h | h) | ⟨hmm, -⟩)
        exacts [h80 h, h89 h, hm hmm]
      rw [if_neg h3, if_neg hc1, if_neg hc2]

theorem unrecognized_ignored_witness :
    handleMIDIMessage [144, 60] [(5, 5)] = [(5, 5)] ∧
      handleMIDIMessage [176, 60, 50] [(5, 5)] = [(5, 5)] :=
  ⟨unrecognized_ignored [144, 60] [(5, 5)] (Or.inl (by decide)),
   unrecognized_ignored [176, 60, 50] [(5, 5)] (Or.inr (by decide))⟩

/-- C4: `midiNoteToName` maps a note to the pitch class `NOTE_NAMES[note % 12]`
followed by the octave `note / 12 - 1` (as an integer); in particular
`midiNoteToName 60 = "C4"`, `midiNoteToName 69 = "A4"` and
`midiNoteToName 0 = "C-1"`. -/
theorem midiNoteToName_spec :
    (∀ note : Nat, note ≤ 127 →
        midiNoteToName note
          = NOTE_NAMES.getD (note % 12) "" ++ toString (((note / 12 : Nat) : Int) - 1)) ∧
    midiNoteToName 60 = "C4" ∧ midiNoteToName 69 = "A4" ∧ midiNoteToName 0 = "C-1" :=
  ⟨fun _ _ => rfl, rfl, rfl, rfl⟩

theorem midiNoteToName_spec_witness :
    midiNoteToName 61 = NOTE_NAMES.getD (61 % 12) "" ++ toString (((61 / 12 : Nat) : Int) - 1) :=
  midiNoteToName_spec.1 61 (by decide)

/-- C5: whatever sequence of messages produced the pressed map, the rendered
list is sorted strictly ascending by note number; pressing 64 then 60 then
67 renders as notes `[60, 64, 67]`. -/
theorem pressedList_sorted :
    (∀ msgs : List (List Nat),
        List.Sorted (fun a b : Nat × Nat => a.1 < b.1) (pressedList (handleMessages msgs))) ∧
    (pressedList (handleMessages [[144, 64, 100], [144, 60, 100], [144, 67, 100]])).map Prod.fst
        = [60, 64, 67] := by
  constructor
  · intro msgs
    have hperm : List.Perm (pressedList (handleMessages msgs)) (handleMessages msgs) :=
      List.perm_insertionSort _ _
    have hnd : ((pressedList (handleMessages msgs)).map Prod.fst).Nodup :=
      ((hperm.map Prod.fst).nodup_iff).mpr (nodup_keys_handleMessages msgs)
    exact sorted_lt_of_le_of_nodup_keys _ (List.sorted_insertionSort _ _) hnd
  · decide

/-- C6: when the access request fails, the resulting status is determined by
the error kind — the permission-denied kind (`SecurityError`) yields
`denied`, every other kind yields `error` — and the pressed map stays
empty. -/
theorem accessError_status (api : Bool) (s : SysState) (err : MIDIError)
    (hp : s.requestPending = true) (hempty : s.app.pressedNotes = []) :
    (err.name = "SecurityError" →
        (step api s (.accessFailed err)).app.midiStatus = .denied) ∧
    (err.name ≠ "SecurityError" →
        (step api s (.accessFailed err)).app.midiStatus = .error) ∧
    (step api s (.accessFailed err)).app.pressedNotes = [] := by
  refine ⟨fun h => ?_, fun h => ?_, ?_⟩
  · simp [step, hp, statusOnAccessError, h]
  · simp [step, hp, statusOnAccessError, h]
  · simp [step, hp, hempty]

theorem accessError_status_witness :
    (step true
        { app := { midiStatus := .requesting, pressedNotes := [], inputNames := [] },
          requestPending := true, inputs := [] }
        (.accessFailed ⟨"SecurityError"⟩)).app.midiStatus = .denied ∧
    (step true
        { app := { midiStatus := .requesting, pressedNotes := [], inputNames := [] },
          requestPending := true, inputs := [] }
        (.accessFailed ⟨"AbortError"⟩)).app.midiStatus = .error :=
  ⟨(accessError_status true
      { app := { midiStatus := .requesting, pressedNotes := [], inputNames := [] },
        requestPending := true, inputs := [] } ⟨"SecurityError"⟩ rfl rfl).1 rfl,
   (accessError_status true
      { app := { midiStatus := .requesting, pressedNotes := [], inputNames := [] },
        requestPending := true, inputs := [] } ⟨"AbortError"⟩ rfl rfl).2.1 (by decide)⟩

/-- C7: when the platform API is absent the startup effect sets the status
to `unsupported`; from any state that is `unsupported` with no pending
request, no sequence of later events (connect clicks, promise callbacks,
messages, device-list changes) ever changes the status; and the connect
action is rendered only while the status is `idle`. -/
theorem unsupported_forever :
    ((step false initState .startup).app.midiStatus = .unsupported) ∧
    (∀ (trace : List MIDIEvent) (s0 : SysState),
        s0.app.midiStatus = .unsupported → s0.requestPending = false →
        (trace.foldl (step false) s0).app.midiStatus = .unsupported) ∧
    (∀ st : AppState, connectButtonVisible st = true ↔ st.midiStatus = .idle) := by
  refine ⟨rfl, ?_, ?_⟩
  · intro trace
    induction trace with
    | nil => intro s0 h1 _; simpa using h1
    | cons e t ih =>
        intro s0 h1 h2
        rw [List.foldl_cons]
        exact ih _ (step_false_preserves_unsupported s0 e h1 h2).1
          (step_false_preserves_unsupported s0 e h1 h2).2
  · intro st
    simp [connectButtonVisible]

theorem unsupported_forever_witness :
    (([MIDIEvent.connectClick, MIDIEvent.accessGranted [],
        MIDIEvent.midiMessage [144, 60, 100], MIDIEvent.deviceListChange []].foldl
        (step false) (step false initState .startup)).app.midiStatus
      = MIDIStatus.unsupported) :=
  unsupported_forever.2.1
    [MIDIEvent.connectClick, MIDIEvent.accessGranted [],
      MIDIEvent.midiMessage [144, 60, 100], MIDIEvent.deviceListChange []]
    (step false initState .startup) rfl rfl

/-- C8 (counterexample): the device-list-change body does not assign the
handler unconditionally: on an input that already holds the shared handler
reference it performs 0 assignments, not one per input. -/
theorem statechange_not_unconditional :
    ¬ ((onStateChange appHandler
          [{ name := none, id := none, onmidimessage := some appHandler }]).2.2
        = [({ name := none, id := none, onmidimessage := some appHandler } : MIDIInput)].length) := by
  decide

/-- C8 (amended): on every device-list-change event the body ensures every
current input ends up holding the shared handler reference — assigning it
only to inputs whose slot differs — and recomputes the name list from the
current device set. -/
theorem statechange_attaches_all (h : Nat) (inputs : List MIDIInput) :
    (∀ i ∈ (onStateChange h inputs).1, i.onmidimessage = some h) ∧
    (onStateChange h inputs).2.1 = inputs.map inputDisplayName ∧
    (onStateChange h inputs).2.2
        = (inputs.filter (fun i => i.onmidimessage != some h)).length := by
  refine ⟨?_, rfl, sum_attach_count h inputs⟩
  intro i hi
  simp only [onStateChange, List.mem_map] at hi
  obtain ⟨j, -, hj⟩ := hi
  rw [← hj]
  unfold attachHandler
  by_cases hc : j.onmidimessage ≠ some h
  · rw [if_pos hc]
  · rw [if_neg hc]
    exact not_not.mp hc

theorem statechange_attaches_all_witness :
    ({ name := some "KB", id := none, onmidimessage := some 0 } : MIDIInput).onmidimessage
        = some 0 ∧
    (onStateChange 0 [{ name := some "KB", id := none, onmidimessage := none }]).2.1 = ["KB"] ∧
    (onStateChange 0 [{ name := some "KB", id := none, onmidimessage := none }]).2.2 = 1 :=
  ⟨(statechange_attaches_all 0 [{ name := some "KB", id := none, onmidimessage := none }]).1
      { name := some "KB", id := none, onmidimessage := some 0 } (by decide),
   ((statechange_attaches_all 0 [{ name := some "KB", id := none, onmidimessage := none }]).2.1).trans
      (by decide),
   ((statechange_attaches_all 0 [{ name := some "KB", id := none, onmidimessage := none }]).2.2).trans
      (by decide)⟩

/-- C9: starting from the empty map, after handling any sequence of valid
MIDI messages (velocity data byte at most 127), every velocity stored in
the pressed map is in `[1, 127]`; in particular zero is never stored. -/
theorem velocities_valid (msgs : List (List Nat))
    (hmsg : ∀ d ∈ msgs, d.getD 2 0 ≤ 127) (k v : Nat)
    (hlk : mapLookup (handleMessages msgs) k = some v) :
    1 ≤ v ∧ v ≤ 127 :=
  vel_invariant_foldl msgs [] hmsg (by simp) (k, v) (mapLookup_mem _ _ _ hlk)

theorem velocities_valid_witness :
    mapLookup (handleMessages [[144, 60, 100]]) 60 = some 100 ∧ (1 ≤ 100 ∧ 100 ≤ 127) :=
  ⟨by decide, velocities_valid [[144, 60, 100]] (by decide) 60 100 (by decide)⟩

/-- C10: handling one message changes at most the entry of the note carried
in byte 1 — every other note's entry is untouched — and a release message
for a note that is not in the pressed map leaves the map unchanged. -/
theorem handle_frame (data : List Nat) (s : NoteMap) :
    (∀ k, k ≠ data.getD 1 0 →
        mapLookup (handleMIDIMessage data s) k = mapLookup s k) ∧
    ((data.getD 0 0 = 0x80 ∨ data.getD 0 0 = 0x89 ∨ data.getD 2 0 = 0) →
        mapLookup s (data.getD 1 0) = none → handleMIDIMessage data s = s) := by
  constructor
  · intro k hk
    unfold handleMIDIMessage
    by_cases h3 : data.length < 3
    · rw [if_pos h3]
    · rw [if_neg h3]
      by_cases hc1 : (data.getD 0 0 = 0x90 ∨ data.getD 0 0 = 0x99) ∧ data.getD 2 0 > 0
      · rw [if_pos hc1]; exact mapLookup_mapSet_ne s _ _ k hk
      · rw [if_neg hc1]
        by_cases hc2 : (data.getD 0 0 = 0x80 ∨ data.getD 0 0 = 0x89) ∨
            (data.getD 0 0 &&& 0xf0 = 0x90 ∧ data.getD 2 0 = 0)
        · rw [if_pos hc2]; exact mapLookup_mapDelete_ne s _ k hk
        · rw [if_neg hc2]
  · intro hrel habs
    unfold handleMIDIMessage
    by_cases h3 : data.length < 3
    · rw [if_pos h3]
    · rw [if_neg h3]
      have hc1 : ¬ ((data.getD 0 0 = 0x90 ∨ data.getD 0 0 = 0x99) ∧ data.getD 2 0 > 0) := by
        rintro ⟨h9, hv0⟩
        rcases hrel with h | h | h <;> rcases h9 with h9 | h9 <;> omega
      rw [if_neg hc1]
      by_cases hc2 : (data.getD 0 0 = 0x80 ∨ data.getD 0 0 = 0x89) ∨
          (data.getD 0 0 &&& 0xf0 = 0x90 ∧ data.getD 2 0 = 0)
      · rw [if_pos hc2]; exact mapDelete_of_lookup_none s _ habs
      · rw [if_neg hc2]

theorem handle_frame_witness :
    mapLookup (handleMIDIMessage [128, 60, 0] [(70, 50)]) 70 = some 50 ∧
      handleMIDIMessage [128, 60, 0] [(70, 50)] = [(70, 50)] :=
  ⟨((handle_frame [128, 60, 0] [(70, 50)]).1 70 (by decide)).trans (by decide),
   (handle_frame [128, 60, 0] [(70, 50)]).2 (by decide) (by decide)⟩

-- Quick sanity checks of the embedding on concrete inputs.
example : midiNoteToName 60 = "C4" := rfl
example : midiNoteToName 0 = "C-1" := rfl
example : handleMIDIMessage [0x90, 60, 80] [] = [(60, 80)] := rfl
example : handleMIDIMessage [0x80, 60, 0] [(60, 80), (64, 90)] = [(64, 90)] := rfl
example : handleMIDIMessage [0x91, 60, 0] [(60, 80)] = [] := by decide
example : handleMIDIMessage [0xb0, 60, 50] [(60, 80)] = [(60, 80)] := by decide
example : pressedList [(64, 1), (60, 2), (67, 3)] = [(60, 2), (64, 1), (67, 3)] := by decide
